import Mathlib

/-!
# tudatpy aerodynamics bindings: helper functions and registration surface

Shallow embedding of `src/tudatpy/kernel/expose_astro/expose_aerodynamics.cpp`:

* `getTotalSurfaceArea` and `getVehicleMesh`, the two helper functions defined in the
  binding layer itself, together with the data they read from the wrapped library;
* the pybind11 registration performed by `expose_aerodynamics`, transcribed as data.

Machine integers are natural numbers with explicit wrap-around: `size_t` values live
below `2 ^ 64`, `unsigned int` loop counters below `2 ^ 32`.
-/

namespace tudatpy

/-! ## Data read from the wrapped library -/

/-- Eigen::Vector3d: three coordinates. The helpers only copy such values. -/
structure Vector3d where
  x : ℚ
  y : ℚ
  z : ℚ
deriving DecidableEq

/-- The type `boost::multi_array< T, 2 >` as the helpers use it: its shape (two `size_t`
extents, `shape( )[ 0 ]` and `shape( )[ 1 ]`) and the element stored at every index pair.
Only the elements at index pairs inside the shape are observable, through `get?`. -/
structure multi_array (α : Type) where
  shape0 : Nat
  shape1 : Nat
  elems : Nat → Nat → α
  shape0_lt : shape0 < 2 ^ 64
  shape1_lt : shape1 < 2 ^ 64

/-- Element access `m[ j ][ k ]`; an index outside the shape has no element. -/
def multi_array.get? {α : Type} (m : multi_array α) (j k : Nat) : Option α :=
  if j < m.shape0 ∧ k < m.shape1 then some (m.elems j k) else none

/-- A vehicle part of the wrapped library, as `getVehiclePart( i )` returns one; the
helpers only read its area, through `getTotalArea( )`. -/
structure LawgsPartGeometry where
  totalArea : ℚ

/-- Area of a vehicle part, `getTotalArea( )`. -/
def LawgsPartGeometry.getTotalArea (p : LawgsPartGeometry) : ℚ := p.totalArea

/-- The analysis object of the wrapped library, reduced to what `getTotalSurfaceArea`
and `getVehicleMesh` read from it: its vehicle parts, the mesh-point arrays returned by
`getMeshPoints( )` and the panel surface normals returned by
`getPanelSurfaceNormals( )`. -/
structure HypersonicLocalInclinationAnalysis where
  vehicleParts : List LawgsPartGeometry
  meshPoints : List (multi_array Vector3d)
  panelSurfaceNormals : List (multi_array Vector3d)

/-- Number of vehicle parts, `getNumberOfVehicleParts( )`. -/
def HypersonicLocalInclinationAnalysis.getNumberOfVehicleParts
    (a : HypersonicLocalInclinationAnalysis) : Nat :=
  a.vehicleParts.length

/-- Vehicle part number `i`, `getVehiclePart( i )`, for an index below the number of parts. -/
def HypersonicLocalInclinationAnalysis.getVehiclePart
    (a : HypersonicLocalInclinationAnalysis) (i : Nat)
    (h : i < a.getNumberOfVehicleParts) : LawgsPartGeometry :=
  a.vehicleParts.get ⟨i, h⟩

/-- Mesh-point arrays, one per part, `getMeshPoints( )`. -/
def HypersonicLocalInclinationAnalysis.getMeshPoints
    (a : HypersonicLocalInclinationAnalysis) : List (multi_array Vector3d) :=
  a.meshPoints

/-- Panel surface normals, one array per part, `getPanelSurfaceNormals( )`. -/
def HypersonicLocalInclinationAnalysis.getPanelSurfaceNormals
    (a : HypersonicLocalInclinationAnalysis) : List (multi_array Vector3d) :=
  a.panelSurfaceNormals

/-! ## getTotalSurfaceArea -/

/-- The loop of `getTotalSurfaceArea`:
`for( int i = 0; i < getNumberOfVehicleParts( ); i++ ) totalSurfaceArea += std::fabs( ... )`.
The counter never exceeds the number of parts, itself an `int`, so it cannot overflow. -/
def getTotalSurfaceArea.loop (a : HypersonicLocalInclinationAnalysis) (i : Nat)
    (totalSurfaceArea : ℚ) : ℚ :=
  if h : i < a.getNumberOfVehicleParts then
    getTotalSurfaceArea.loop a (i + 1)
      (totalSurfaceArea + |(a.getVehiclePart i h).getTotalArea|)
  else
    totalSurfaceArea
termination_by a.getNumberOfVehicleParts - i

/-- The function `getTotalSurfaceArea`: the accumulator starts at `0.0`. -/
def getTotalSurfaceArea (a : HypersonicLocalInclinationAnalysis) : ℚ :=
  getTotalSurfaceArea.loop a 0 0

/-! ## getVehicleMesh -/

/-- How a run of a helper ends: it returns a value, it reads outside an array or vector,
or the step budget of the model is used up before the code returns. -/
inductive Outcome (σ : Type) where
  | returned (s : σ)
  | outOfRange
  | outOfFuel
deriving DecidableEq

/-- Sequencing: continue with the returned value, stop at the first failure. -/
def Outcome.bind {σ τ : Type} (o : Outcome σ) (f : σ → Outcome τ) : Outcome τ :=
  match o with
  | .returned s => f s
  | .outOfRange => .outOfRange
  | .outOfFuel => .outOfFuel

/-- Subtraction of `size_t` values (unsigned 64-bit): `a - b` wraps around below zero. -/
def sizeSub (a b : Nat) : Nat := (a + 2 ^ 64 - b) % 2 ^ 64

/-- The statement `for( unsigned int x = ...; x < bound; x++ ) body`, with `bound` a
`size_t`: the comparison is made in 64 bits, the increment wraps around at `2 ^ 32`.
Every test of the loop condition uses one unit of `fuel`; the body receives the fuel
that is left for the loops nested in it. -/
def forUnsignedInt {σ : Type} (bound : Nat) (body : Nat → Nat → σ → Outcome σ) :
    Nat → Nat → σ → Outcome σ
  | 0, _, _ => .outOfFuel
  | fuel + 1, x, s =>
    if x < bound then
      (body fuel x s).bind (forUnsignedInt bound body fuel ((x + 1) % 2 ^ 32))
    else
      .returned s

/-- Element `[ i ][ j ][ k ]` of a vector of two-dimensional arrays. -/
def meshAt? {α : Type} (mesh : List (multi_array α)) (i j k : Nat) : Option α :=
  match mesh[i]? with
  | none => none
  | some m => m.get? j k

/-- Body of the innermost loop of `getVehicleMesh`:
`meshPointsList.push_back( meshPoints[ i ][ j ][ k ] );`
`surfaceNormalsList.push_back( meshSurfaceNormals[ i ][ j ][ k ] );`.
The local `counter` is incremented here too, but it is never read. -/
def getVehicleMesh.panel {α : Type} (meshPoints meshSurfaceNormals : List (multi_array α))
    (i j : Nat) (_fuel k : Nat) (lists : List α × List α) : Outcome (List α × List α) :=
  match meshAt? meshPoints i j k with
  | none => .outOfRange
  | some point =>
    match meshAt? meshSurfaceNormals i j k with
    | none => .outOfRange
    | some normal => .returned (lists.1 ++ [point], lists.2 ++ [normal])

/-- Body of the loop over `j`: the loop over `k`, whose bound is
`meshPoints.at( i ).shape( )[ 1 ] - 1`. -/
def getVehicleMesh.row {α : Type} (meshPoints meshSurfaceNormals : List (multi_array α))
    (i : Nat) (fuel j : Nat) (lists : List α × List α) : Outcome (List α × List α) :=
  match meshPoints[i]? with
  | none => .outOfRange
  | some m =>
    forUnsignedInt (sizeSub m.shape1 1)
      (getVehicleMesh.panel meshPoints meshSurfaceNormals i j) fuel 0 lists

/-- Body of the loop over `i`: the loop over `j`, whose bound is
`meshPoints.at( i ).shape( )[ 0 ] - 1`. -/
def getVehicleMesh.part {α : Type} (meshPoints meshSurfaceNormals : List (multi_array α))
    (fuel i : Nat) (lists : List α × List α) : Outcome (List α × List α) :=
  match meshPoints[i]? with
  | none => .outOfRange
  | some m =>
    forUnsignedInt (sizeSub m.shape0 1)
      (getVehicleMesh.row meshPoints meshSurfaceNormals i) fuel 0 lists

/-- The three nested loops of `getVehicleMesh` over given arrays, started on empty lists. -/
def getVehicleMesh.loops {α : Type} (meshPoints meshSurfaceNormals : List (multi_array α))
    (fuel : Nat) : Outcome (List α × List α) :=
  forUnsignedInt meshPoints.length
    (getVehicleMesh.part meshPoints meshSurfaceNormals) fuel 0 ([], [])

/-- The function `getVehicleMesh`: the pair (mesh points, surface normals) it returns. -/
def getVehicleMesh (fuel : Nat) (a : HypersonicLocalInclinationAnalysis) :
    Outcome (List Vector3d × List Vector3d) :=
  getVehicleMesh.loops a.getMeshPoints a.getPanelSurfaceNormals fuel


/-! ## The lists built by getVehicleMesh -/

section MeshDefs

variable {α : Type}

/-- Bound of the loop over `j` for part `i`: `shape( )[ 0 ] - 1` in `size_t` arithmetic. -/
def bound0 (mesh : List (multi_array α)) (i : Nat) : Nat :=
  match mesh[i]? with
  | none => 0
  | some m => sizeSub m.shape0 1

/-- Bound of the loop over `k` for part `i`: `shape( )[ 1 ] - 1` in `size_t` arithmetic. -/
def bound1 (mesh : List (multi_array α)) (i : Nat) : Nat :=
  match mesh[i]? with
  | none => 0
  | some m => sizeSub m.shape1 1

/-- What one run of the loop over `k` reads from `src`, in order. -/
def visitedRow (mesh src : List (multi_array α)) (i j : Nat) : List (Option α) :=
  (List.range (bound1 mesh i)).map (fun k => meshAt? src i j k)

/-- What one run of the loop over `j` reads from `src`, in order. -/
def visitedPart (mesh src : List (multi_array α)) (i : Nat) : List (Option α) :=
  (List.range (bound0 mesh i)).flatMap (visitedRow mesh src i)

/-- What the three loops read from `src`, in order. -/
def visited (mesh src : List (multi_array α)) : List (Option α) :=
  (List.range mesh.length).flatMap (visitedPart mesh src)

end MeshDefs

/-! ## Quantities the properties of getVehicleMesh are stated with -/

/-- Number of mesh cells (panels) of one part: `(r - 1) * (c - 1)` for shape `(r, c)`. -/
def multi_array.cells {α : Type} (m : multi_array α) : Nat :=
  (m.shape0 - 1) * (m.shape1 - 1)

/-- Number of mesh cells summed across all parts. -/
def panelCount (a : HypersonicLocalInclinationAnalysis) : Nat :=
  (a.getMeshPoints.map multi_array.cells).sum

/-- Number of mesh cells of the parts before part `i`. -/
def panelOffset (a : HypersonicLocalInclinationAnalysis) (i : Nat) : Nat :=
  ((a.getMeshPoints.take i).map multi_array.cells).sum

/-- Every mesh-point array has at least one row and one column. -/
def ShapesPositive (a : HypersonicLocalInclinationAnalysis) : Prop :=
  ∀ m ∈ a.getMeshPoints, 1 ≤ m.shape0 ∧ 1 ≤ m.shape1

/-- The surface-normal arrays have an element at every index the loops visit. -/
def NormalsCover (a : HypersonicLocalInclinationAnalysis) : Prop :=
  ∀ (i : Nat) (m : multi_array Vector3d), a.getMeshPoints[i]? = some m →
    ∀ j k : Nat, j < m.shape0 - 1 → k < m.shape1 - 1 →
    (meshAt? a.getPanelSurfaceNormals i j k).isSome = true

/-- The shape relation of the library: as many normal arrays as mesh-point arrays, every
mesh-point array of shape `(r, c)` with `r, c ≥ 1`, its normal array at least
`(r - 1, c - 1)`. -/
def ShapeRelation (a : HypersonicLocalInclinationAnalysis) : Prop :=
  a.getPanelSurfaceNormals.length = a.getMeshPoints.length ∧
  ∀ p ∈ a.getMeshPoints.zip a.getPanelSurfaceNormals,
    1 ≤ p.1.shape0 ∧ 1 ≤ p.1.shape1 ∧
    p.1.shape0 - 1 ≤ p.2.shape0 ∧ p.1.shape1 - 1 ≤ p.2.shape1

/-- The part count and every loop bound can be reached by the 32-bit loop counters. -/
def FitsCounters (a : HypersonicLocalInclinationAnalysis) : Prop :=
  a.getMeshPoints.length < 2 ^ 32 ∧
  ∀ m ∈ a.getMeshPoints, m.shape0 ≤ 2 ^ 32 ∧ m.shape1 ≤ 2 ^ 32

instance (a : HypersonicLocalInclinationAnalysis) : Decidable (ShapesPositive a) := by
  unfold ShapesPositive; infer_instance

instance (a : HypersonicLocalInclinationAnalysis) : Decidable (ShapeRelation a) := by
  unfold ShapeRelation; infer_instance

instance (a : HypersonicLocalInclinationAnalysis) : Decidable (FitsCounters a) := by
  unfold FitsCounters; infer_instance

/-- The call `getVehicleMesh( a )` returns the pair `r`: some step budget is enough. -/
def Returns (a : HypersonicLocalInclinationAnalysis) (r : List Vector3d × List Vector3d) :
    Prop :=
  ∃ fuel, getVehicleMesh fuel a = .returned r

/-! ## Sample analysis objects -/

/-- A sample array of the given shape whose element at `(j, k)` is `(tag, j, k)`. -/
def sampleArray (tag : ℚ) (shape0 shape1 : Nat)
    (h0 : shape0 < 2 ^ 64) (h1 : shape1 < 2 ^ 64) : multi_array Vector3d :=
  ⟨shape0, shape1, fun j k => ⟨tag, j, k⟩, h0, h1⟩

/-- Two parts with mesh shapes `(3, 3)` and `(2, 3)`, normals `(2, 2)` and `(1, 2)`, and
part areas `-2` and `3`. -/
def sampleAnalysis : HypersonicLocalInclinationAnalysis :=
  ⟨[⟨-2⟩, ⟨3⟩],
   [sampleArray 0 3 3 (by decide) (by decide), sampleArray 1 2 3 (by decide) (by decide)],
   [sampleArray 10 2 2 (by decide) (by decide), sampleArray 11 1 2 (by decide) (by decide)]⟩

/-- One part whose mesh-point array has zero rows and one column. -/
def zeroRowsAnalysis : HypersonicLocalInclinationAnalysis :=
  ⟨[⟨1⟩], [sampleArray 0 0 1 (by decide) (by decide)],
   [sampleArray 10 0 0 (by decide) (by decide)]⟩

/-- One part whose mesh-point array has two rows and zero columns. -/
def zeroColumnsAnalysis : HypersonicLocalInclinationAnalysis :=
  ⟨[⟨1⟩], [sampleArray 0 2 0 (by decide) (by decide)],
   [sampleArray 10 1 0 (by decide) (by decide)]⟩

/-- The pair of lists `getVehicleMesh` returns on `sampleAnalysis`. -/
def sampleResult : List Vector3d × List Vector3d :=
  ([⟨0, 0, 0⟩, ⟨0, 0, 1⟩, ⟨0, 1, 0⟩, ⟨0, 1, 1⟩, ⟨1, 0, 0⟩, ⟨1, 0, 1⟩],
   [⟨10, 0, 0⟩, ⟨10, 0, 1⟩, ⟨10, 1, 0⟩, ⟨10, 1, 1⟩, ⟨11, 0, 0⟩, ⟨11, 0, 1⟩])

/-- One part whose mesh-point array has `2 ^ 32 + 1` rows and one column. -/
def manyRowsAnalysis : HypersonicLocalInclinationAnalysis :=
  ⟨[⟨1⟩], [sampleArray 0 (2 ^ 32 + 1) 1 (by decide) (by decide)],
   [sampleArray 10 0 0 (by decide) (by decide)]⟩

/-! ## The registration performed by expose_aerodynamics -/

/-- A default value given to a keyword argument in the registration. -/
inductive DefaultValue where
  | boolean (b : Bool)
  | text (s : String)
  | nullHandle
deriving DecidableEq

/-- A keyword argument declaration: `py::arg( "name" )`, possibly `= default`. -/
structure Arg where
  name : String
  default : Option DefaultValue
deriving DecidableEq

/-- The declaration `py::arg( "name" )`: a named argument without default. -/
def arg (name : String) : Arg := ⟨name, none⟩

/-- The declaration `py::arg( "name" ) = value`: a named argument with a default. -/
def argDefault (name : String) (value : DefaultValue) : Arg := ⟨name, some value⟩

/-- One call chained on a `py::class_`; native members are referred to by name. -/
inductive Member where
  | init (args : List Arg)
  | method (name native : String) (args : List Arg)
  | property_readonly (name getter : String)
  | readwrite (name field : String)
deriving DecidableEq

/-- One top-level registration: a `py::enum_` with its values, a `py::class_` with its
chained calls, or a module function `m.def`. -/
inductive Declaration where
  | enum_ (name native : String) (values : List (String × String))
  | class_ (name native : String) (members : List Member)
  | function (name native : String) (args : List Arg)
deriving DecidableEq

/-- The registration calls of `expose_aerodynamics`, in source order. -/
def expose_aerodynamics : List Declaration := [
  .enum_ "AerodynamicCoefficientsIndependentVariables"
    "AerodynamicCoefficientsIndependentVariables" [
      ("mach_number_dependent", "mach_number_dependent"),
      ("angle_of_attack_dependent", "angle_of_attack_dependent"),
      ("sideslip_angle_dependent", "angle_of_sideslip_dependent"),
      ("altitude_dependent", "altitude_dependent"),
      ("time_dependent", "time_dependent"),
      ("control_surface_deflection_dependent", "control_surface_deflection_dependent"),
      ("undefined_independent_variable", "undefined_independent_variable")],
  .class_ "AerodynamicCoefficientInterface" "AerodynamicCoefficientInterface" [
      .property_readonly "reference_area" "getReferenceArea",
      .property_readonly "current_force_coefficients" "getCurrentForceCoefficients",
      .property_readonly "current_moment_coefficients" "getCurrentMomentCoefficients",
      .property_readonly "current_coefficients" "getCurrentAerodynamicCoefficients",
      .method "update_coefficients" "updateCurrentCoefficients"
        [arg "independent_variables", arg "time"]],
  .class_ "AerodynamicCoefficientGenerator36" "AerodynamicCoefficientGenerator<3, 6>" [],
  .function "get_default_local_inclination_mach_points"
    "getDefaultHypersonicLocalInclinationMachPoints"
    [argDefault "mach_regime" (.text "Full")],
  .function "get_default_local_inclination_angle_of_attack_points"
    "getDefaultHypersonicLocalInclinationAngleOfAttackPoints" [],
  .function "get_default_local_inclination_sideslip_angle_points"
    "getDefaultHypersonicLocalInclinationAngleOfSideslipPoints" [],
  .class_ "HypersonicLocalInclinationAnalysis" "HypersonicLocalInclinationAnalysis" [
      .init [
        arg "independent_variable_points",
        arg "body_shape",
        arg "number_of_lines",
        arg "number_of_points",
        arg "invert_orders",
        arg "selected_methods",
        arg "reference_area",
        arg "reference_length",
        arg "moment_reference_point",
        argDefault "save_pressure_coefficients" (.boolean false)]],
  .function "get_local_inclination_total_vehicle_area" "getTotalSurfaceArea"
    [arg "local_inclination_analysis_object"],
  .function "get_local_inclination_mesh" "getVehicleMesh"
    [arg "local_inclination_analysis_object"],
  .class_ "FlightConditions" "FlightConditions" [
      .init [arg "shape_model", argDefault "aerodynamic_angle_calculator" .nullHandle],
      .method "get_aerodynamic_angle_calculator" "getAerodynamicAngleCalculator" [],
      .method "update_conditions" "updateConditions" [arg "current_time"],
      .property_readonly "aerodynamic_angle_calculator" "getAerodynamicAngleCalculator",
      .property_readonly "current_altitude" "getCurrentAltitude",
      .property_readonly "current_longitude" "getCurrentLongitude",
      .property_readonly "current_geodetic_latitude" "getCurrentTime",
      .property_readonly "current_time" "getCurrentGeodeticLatitude",
      .property_readonly "current_body_centered_body_fixed_state"
        "getCurrentBodyCenteredBodyFixedState",
      .property_readonly "current_altitude" "getCurrentAltitude"],
  .class_ "AtmosphericFlightConditions" "AtmosphericFlightConditions" [
      .property_readonly "current_density" "getCurrentDensity",
      .property_readonly "current_temperature" "getCurrentFreestreamTemperature",
      .property_readonly "current_dynamic_pressure" "getCurrentDynamicPressure",
      .property_readonly "current_pressure" "getCurrentPressure",
      .property_readonly "current_airspeed" "getCurrentAirspeed",
      .property_readonly "current_mach_number" "getCurrentMachNumber",
      .property_readonly "current_airspeed_velocity" "getCurrentAirspeedBasedVelocity",
      .property_readonly "current_speed_of_sound" "getCurrentSpeedOfSound",
      .property_readonly "current_aerodynamic_coefficient_independent_variables"
        "getAerodynamicCoefficientIndependentVariables",
      .property_readonly
        "current_control_surface+aerodynamic_coefficient_independent_variables"
        "getControlSurfaceAerodynamicCoefficientIndependentVariables",
      .property_readonly "aerodynamic_coefficient_interface"
        "getAerodynamicCoefficientInterface"],
  .class_ "AerodynamicGuidance" "AerodynamicGuidance" [
      .init [],
      .method "updateGuidance" "updateGuidance" [arg "current_time"],
      .readwrite "angle_of_attack" "currentAngleOfAttack_",
      .readwrite "bank_angle" "currentBankAngle_",
      .readwrite "sideslip_angle" "currentAngleOfSideslip_"]]

/-- The chained calls registered on the class exposed under `name`. -/
def classMembers (decls : List Declaration) (name : String) : List Member :=
  decls.flatMap fun d =>
    match d with
    | .class_ n _ members => if n = name then members else []
    | _ => []

/-- The keyword arguments of the module function exposed under `name`. -/
def functionArgs (decls : List Declaration) (name : String) : Option (List Arg) :=
  decls.findSome? fun d =>
    match d with
    | .function n _ args => if n = name then some args else none
    | _ => none

/-- The argument lists of the constructors registered on a class. -/
def constructors (members : List Member) : List (List Arg) :=
  members.filterMap fun m =>
    match m with
    | .init args => some args
    | _ => none

/-- The read-only properties registered on a class, as (name, native getter) pairs. -/
def readonlyProperties (members : List Member) : List (String × String) :=
  members.filterMap fun m =>
    match m with
    | .property_readonly n g => some (n, g)
    | _ => none

/-- The native getter a read-only property resolves to: registering a name again
replaces the attribute, so the last registration counts. -/
def propertyGetter (members : List Member) (name : String) : Option String :=
  (readonlyProperties members).reverse.findSome? fun p =>
    if p.1 = name then some p.2 else none

/-- Name of the native getter of the quantity a property name states: `get` followed
by the words of the name, each capitalised (`current_time` gives `getCurrentTime`). -/
def statedGetter (property : String) : String :=
  let rec words (up : Bool) : List Char → List Char
    | [] => []
    | c :: cs =>
      if c = '_' then words true cs
      else (if up then c.toUpper else c) :: words false cs
  "get" ++ String.mk (words true property.toList)

/-- Names a member exposes: its own name and the names of its keyword arguments. -/
def Member.names : Member → List String
  | .init args => args.map Arg.name
  | .method n _ args => n :: args.map Arg.name
  | .property_readonly n _ => [n]
  | .readwrite n _ => [n]

/-- Names a registration exposes to the scripting environment. -/
def Declaration.names : Declaration → List String
  | .enum_ n _ values => n :: values.map Prod.fst
  | .class_ n _ members => n :: members.flatMap Member.names
  | .function n _ args => n :: args.map Arg.name

/-- Every name the registration exposes, in source order. -/
def exposedNames (decls : List Declaration) : List String :=
  decls.flatMap Declaration.names

/-- Valid identifier of the scripting environment: letters, digits and underscores
only, not empty and not starting with a digit. -/
def isIdentifier (s : String) : Bool :=
  match s.toList with
  | [] => false
  | c :: cs =>
    (c.isAlpha || c = '_') && cs.all (fun d => d.isAlphanum || d = '_')

/-! ## Loops with a 32-bit counter -/

section Loops

variable {σ : Type}

theorem Outcome.bind_eq_returned {τ : Type} {o : Outcome σ} {f : σ → Outcome τ} {r : τ} :
    o.bind f = .returned r ↔ ∃ s, o = .returned s ∧ f s = .returned r := by
  cases o <;> simp [Outcome.bind]

theorem Outcome.bind_eq_outOfRange {τ : Type} {o : Outcome σ} {f : σ → Outcome τ} :
    o.bind f = .outOfRange ↔ o = .outOfRange ∨ ∃ s, o = .returned s ∧ f s = .outOfRange := by
  cases o <;> simp [Outcome.bind]

theorem forUnsignedInt_succ (bound : Nat) (body : Nat → Nat → σ → Outcome σ)
    (fuel x : Nat) (s : σ) :
    forUnsignedInt bound body (fuel + 1) x s =
      if x < bound then
        (body fuel x s).bind (forUnsignedInt bound body fuel ((x + 1) % 2 ^ 32))
      else .returned s := rfl

/-- A loop whose bound does not fit the 32-bit counter never returns. -/
theorem forUnsignedInt_large_bound (bound : Nat) (body : Nat → Nat → σ → Outcome σ)
    (hb : 2 ^ 32 ≤ bound) :
    ∀ (fuel x : Nat) (s r : σ), x < 2 ^ 32 →
      forUnsignedInt bound body fuel x s ≠ .returned r := by
  intro fuel
  induction fuel with
  | zero => intro x s r _ h; simp [forUnsignedInt] at h
  | succ fuel ih =>
    intro x s r hx h
    rw [forUnsignedInt_succ, if_pos (by omega)] at h
    obtain ⟨s1, _, h2⟩ := Outcome.bind_eq_returned.mp h
    exact ih _ s1 r (Nat.mod_lt _ (by decide)) h2

/-- A loop that returns after entering its body has had its first body run return. -/
theorem forUnsignedInt_first (bound : Nat) (body : Nat → Nat → σ → Outcome σ)
    (fuel x : Nat) (s r : σ) (hx : x < bound)
    (h : forUnsignedInt bound body fuel x s = .returned r) :
    ∃ f s1, body f x s = .returned s1 := by
  cases fuel with
  | zero => simp [forUnsignedInt] at h
  | succ fuel =>
    rw [forUnsignedInt_succ, if_pos hx] at h
    obtain ⟨s1, h1, _⟩ := Outcome.bind_eq_returned.mp h
    exact ⟨fuel, s1, h1⟩

/-- Invariant rule: what the body preserves from one counter value to the next holds
at the bound when the loop returns. -/
theorem forUnsignedInt_invariant (bound : Nat) (body : Nat → Nat → σ → Outcome σ)
    (Q : Nat → σ → Prop)
    (hbody : ∀ f x s s1, x < bound → Q x s → body f x s = .returned s1 → Q (x + 1) s1)
    (hb : bound < 2 ^ 32) :
    ∀ (fuel x : Nat) (s r : σ), x ≤ bound → Q x s →
      forUnsignedInt bound body fuel x s = .returned r → Q bound r := by
  intro fuel
  induction fuel with
  | zero => intro x s r _ _ h; simp [forUnsignedInt] at h
  | succ fuel ih =>
    intro x s r hx hq h
    rw [forUnsignedInt_succ] at h
    by_cases hlt : x < bound
    · rw [if_pos hlt] at h
      obtain ⟨s1, h1, h2⟩ := Outcome.bind_eq_returned.mp h
      have hmod : (x + 1) % 2 ^ 32 = x + 1 := Nat.mod_eq_of_lt (by omega)
      rw [hmod] at h2
      exact ih (x + 1) s1 r (by omega) (hbody fuel x s s1 hlt hq h1) h2
    · rw [if_neg hlt] at h
      have hxb : x = bound := by omega
      cases h
      rw [← hxb]; exact hq

/-- A returning loop started at zero appends, for each counter value below the bound
in turn, what its body appends. -/
theorem forUnsignedInt_append {β : Type} (bound : Nat) (body : Nat → Nat → σ → Outcome σ)
    (enc : σ → List β) (E : Nat → List β)
    (hbody : ∀ f x s s1, x < bound → body f x s = .returned s1 → enc s1 = enc s ++ E x)
    (fuel : Nat) (s r : σ) (h : forUnsignedInt bound body fuel 0 s = .returned r) :
    enc r = enc s ++ (List.range bound).flatMap E := by
  by_cases hb : bound < 2 ^ 32
  · have key := forUnsignedInt_invariant bound body
      (fun x t => enc t = enc s ++ (List.range x).flatMap E)
      (by
        intro f x t t1 hx hq ht
        rw [hbody f x t t1 hx ht, hq, List.range_succ, List.flatMap_append]
        simp)
      hb fuel 0 s r (Nat.zero_le _) (by simp) h
    exact key
  · exact absurd h (forUnsignedInt_large_bound bound body (by omega) fuel 0 s r (by decide))

/-- A loop whose bound fits the counter returns when every body run returns, given
fuel for its tests on top of the fuel `N` that suffices for each body run. -/
theorem forUnsignedInt_returns (bound : Nat) (body : Nat → Nat → σ → Outcome σ) (N : Nat)
    (hbody : ∀ f x s, x < bound → N ≤ f → ∃ s1, body f x s = .returned s1)
    (hb : bound < 2 ^ 32) :
    ∀ (fuel x : Nat) (s : σ), x ≤ bound → N + (bound - x) < fuel →
      ∃ r, forUnsignedInt bound body fuel x s = .returned r := by
  intro fuel
  induction fuel with
  | zero => intro x s _ h; omega
  | succ fuel ih =>
    intro x s hx hf
    rw [forUnsignedInt_succ]
    by_cases hlt : x < bound
    · rw [if_pos hlt]
      obtain ⟨s1, h1⟩ := hbody fuel x s hlt (by omega)
      rw [h1, Nat.mod_eq_of_lt (by omega : x + 1 < 2 ^ 32)]
      exact ih (x + 1) s1 (by omega) (by omega)
    · rw [if_neg hlt]; exact ⟨s, rfl⟩

/-- A loop reads out of range only if one of its body runs does. -/
theorem forUnsignedInt_in_range (bound : Nat) (body : Nat → Nat → σ → Outcome σ)
    (hbody : ∀ f x s, x < bound → body f x s ≠ .outOfRange) :
    ∀ (fuel x : Nat) (s : σ), forUnsignedInt bound body fuel x s ≠ .outOfRange := by
  intro fuel
  induction fuel with
  | zero => intro x s h; simp [forUnsignedInt] at h
  | succ fuel ih =>
    intro x s h
    rw [forUnsignedInt_succ] at h
    by_cases hlt : x < bound
    · rw [if_pos hlt] at h
      rcases Outcome.bind_eq_outOfRange.mp h with h1 | ⟨s1, _, h2⟩
      · exact hbody fuel x s hlt h1
      · exact ih _ s1 h2
    · rw [if_neg hlt] at h; cases h

end Loops

section Mesh

variable {α : Type}

theorem panel_returned {mp mn : List (multi_array α)} {i j f k : Nat}
    {s s1 : List α × List α}
    (h : getVehicleMesh.panel mp mn i j f k s = .returned s1) :
    ∃ p n, meshAt? mp i j k = some p ∧ meshAt? mn i j k = some n ∧
      s1 = (s.1 ++ [p], s.2 ++ [n]) := by
  unfold getVehicleMesh.panel at h
  cases hp : meshAt? mp i j k with
  | none => simp [hp] at h
  | some p =>
    cases hn : meshAt? mn i j k with
    | none => simp [hp, hn] at h
    | some n =>
      simp only [hp, hn, Outcome.returned.injEq] at h
      exact ⟨p, n, rfl, rfl, h.symm⟩

theorem row_returned {mp mn : List (multi_array α)} {i f j : Nat}
    {s s1 : List α × List α}
    (h : getVehicleMesh.row mp mn i f j s = .returned s1) :
    s1.1.map some = s.1.map some ++ visitedRow mp mp i j ∧
    s1.2.map some = s.2.map some ++ visitedRow mp mn i j := by
  unfold getVehicleMesh.row at h
  cases hm : mp[i]? with
  | none => simp [hm] at h
  | some m =>
    simp only [hm] at h
    have hb : bound1 mp i = sizeSub m.shape1 1 := by simp [bound1, hm]
    constructor
    · have := forUnsignedInt_append _ _ (fun t : List α × List α => t.1.map some)
        (fun k => [meshAt? mp i j k])
        (by
          intro f x t t1 _ ht
          obtain ⟨p, n, hp, _, rfl⟩ := panel_returned ht
          simp [hp]) f s s1 h
      have e : (List.range (sizeSub m.shape1 1)).flatMap (fun k => [meshAt? mp i j k]) =
          visitedRow mp mp i j := by rw [visitedRow, hb, List.map_eq_flatMap]
      rw [← e]; exact this
    · have := forUnsignedInt_append _ _ (fun t : List α × List α => t.2.map some)
        (fun k => [meshAt? mn i j k])
        (by
          intro f x t t1 _ ht
          obtain ⟨p, n, _, hn, rfl⟩ := panel_returned ht
          simp [hn]) f s s1 h
      have e : (List.range (sizeSub m.shape1 1)).flatMap (fun k => [meshAt? mn i j k]) =
          visitedRow mp mn i j := by rw [visitedRow, hb, List.map_eq_flatMap]
      rw [← e]; exact this

theorem part_returned {mp mn : List (multi_array α)} {f i : Nat}
    {s s1 : List α × List α}
    (h : getVehicleMesh.part mp mn f i s = .returned s1) :
    s1.1.map some = s.1.map some ++ visitedPart mp mp i ∧
    s1.2.map some = s.2.map some ++ visitedPart mp mn i := by
  unfold getVehicleMesh.part at h
  cases hm : mp[i]? with
  | none => simp [hm] at h
  | some m =>
    simp only [hm] at h
    have hb : bound0 mp i = sizeSub m.shape0 1 := by simp [bound0, hm]
    constructor
    · have := forUnsignedInt_append _ _ (fun t : List α × List α => t.1.map some)
        (visitedRow mp mp i)
        (fun f x t t1 _ ht => (row_returned ht).1) f s s1 h
      rw [visitedPart, hb]; exact this
    · have := forUnsignedInt_append _ _ (fun t : List α × List α => t.2.map some)
        (visitedRow mp mn i)
        (fun f x t t1 _ ht => (row_returned ht).2) f s s1 h
      rw [visitedPart, hb]; exact this

/-- The lists a returning run has built are exactly what the loops read, in order. -/
theorem loops_returned {mp mn : List (multi_array α)} {fuel : Nat}
    {r : List α × List α}
    (h : getVehicleMesh.loops mp mn fuel = .returned r) :
    r.1.map some = visited mp mp ∧ r.2.map some = visited mp mn := by
  unfold getVehicleMesh.loops at h
  constructor
  · have := forUnsignedInt_append _ _ (fun t : List α × List α => t.1.map some)
      (visitedPart mp mp)
      (fun f x t t1 _ ht => (part_returned ht).1) fuel _ r h
    simpa [visited] using this
  · have := forUnsignedInt_append _ _ (fun t : List α × List α => t.2.map some)
      (visitedPart mp mn)
      (fun f x t t1 _ ht => (part_returned ht).2) fuel _ r h
    simpa [visited] using this


/-! ## Lengths and positions in the visited lists -/

theorem sizeSub_one {n : Nat} (h1 : 1 ≤ n) (h : n < 2 ^ 64) : sizeSub n 1 = n - 1 := by
  unfold sizeSub; omega

theorem bound0_of_getElem? {mesh : List (multi_array α)} {i : Nat} {m : multi_array α}
    (hm : mesh[i]? = some m) (h1 : 1 ≤ m.shape0) : bound0 mesh i = m.shape0 - 1 := by
  simp [bound0, hm, sizeSub_one h1 m.shape0_lt]

theorem bound1_of_getElem? {mesh : List (multi_array α)} {i : Nat} {m : multi_array α}
    (hm : mesh[i]? = some m) (h1 : 1 ≤ m.shape1) : bound1 mesh i = m.shape1 - 1 := by
  simp [bound1, hm, sizeSub_one h1 m.shape1_lt]

theorem length_visitedRow (mesh src : List (multi_array α)) (i j : Nat) :
    (visitedRow mesh src i j).length = bound1 mesh i := by
  simp [visitedRow]

theorem length_flatMap_const {β γ : Type} (l : List γ) (E : γ → List β) (c : Nat)
    (h : ∀ x ∈ l, (E x).length = c) : (l.flatMap E).length = l.length * c := by
  induction l with
  | nil => simp
  | cons x xs ih =>
    have hx : (E x).length = c := h x (List.mem_cons_self x xs)
    have hxs := ih (fun y hy => h y (List.mem_cons_of_mem x hy))
    simp only [List.flatMap_cons, List.length_append, hx, hxs, List.length_cons]
    rw [Nat.add_mul, Nat.one_mul, Nat.add_comm]

theorem length_visitedPart (mesh src : List (multi_array α)) (i : Nat) :
    (visitedPart mesh src i).length = bound0 mesh i * bound1 mesh i := by
  unfold visitedPart
  rw [length_flatMap_const _ _ (bound1 mesh i)
    (fun j _ => length_visitedRow mesh src i j), List.length_range]

theorem length_visitedPart_of_getElem? {mesh : List (multi_array α)}
    (src : List (multi_array α)) {i : Nat} {m : multi_array α}
    (hm : mesh[i]? = some m) (h0 : 1 ≤ m.shape0) (h1 : 1 ≤ m.shape1) :
    (visitedPart mesh src i).length = m.cells := by
  rw [length_visitedPart, bound0_of_getElem? hm h0, bound1_of_getElem? hm h1,
    multi_array.cells]

/-- Length of the reads made for the first `i` parts: the cells of these parts. -/
theorem length_visited_upto (mesh src : List (multi_array α))
    (hpos : ∀ m ∈ mesh, 1 ≤ m.shape0 ∧ 1 ≤ m.shape1) :
    ∀ i, i ≤ mesh.length →
      ((List.range i).flatMap (visitedPart mesh src)).length =
        ((mesh.take i).map multi_array.cells).sum := by
  intro i
  induction i with
  | zero => intro _; simp
  | succ i ih =>
    intro hi
    have hlt : i < mesh.length := hi
    have hm : mesh[i]? = some mesh[i] := List.getElem?_eq_getElem hlt
    have hp := hpos mesh[i] (List.getElem_mem hlt)
    rw [List.range_succ, List.flatMap_append, List.length_append, ih (by omega),
      List.take_succ, hm, List.map_append, List.sum_append]
    simp [length_visitedPart_of_getElem? src hm hp.1 hp.2]

theorem length_visited (mesh src : List (multi_array α))
    (hpos : ∀ m ∈ mesh, 1 ≤ m.shape0 ∧ 1 ≤ m.shape1) :
    (visited mesh src).length = (mesh.map multi_array.cells).sum := by
  have := length_visited_upto mesh src hpos mesh.length (Nat.le_refl _)
  simpa [visited] using this

/-- The reads of points and of normals are equally many, whatever the shapes. -/
theorem length_visited_eq (mesh src src2 : List (multi_array α)) :
    (visited mesh src).length = (visited mesh src2).length := by
  unfold visited
  rw [List.length_flatMap, List.length_flatMap]
  congr 1
  apply List.map_congr_left
  intro i _
  simp [length_visitedPart]

/-- Position of the reads of step `x` inside the reads of a loop of `n` steps. -/
theorem getElem?_flatMap_range {β : Type} (E : Nat → List β) (n x t : Nat)
    (hx : x < n) (ht : t < (E x).length) :
    ((List.range n).flatMap E)[((List.range x).flatMap E).length + t]? = (E x)[t]? := by
  obtain ⟨d, rfl⟩ : ∃ d, n = (x + 1) + d := ⟨n - (x + 1), by omega⟩
  rw [List.range_add, List.flatMap_append, List.range_succ, List.flatMap_append,
    List.append_assoc, List.getElem?_append_right (Nat.le_add_right _ _)]
  simp only [Nat.add_sub_cancel_left]
  rw [List.getElem?_append_left (by simpa using ht)]
  simp

theorem getElem?_visitedPart {mesh : List (multi_array α)} (src : List (multi_array α))
    {i j k : Nat} (hj : j < bound0 mesh i) (hk : k < bound1 mesh i) :
    (visitedPart mesh src i)[j * bound1 mesh i + k]? = some (meshAt? src i j k) := by
  have hoff : ((List.range j).flatMap (visitedRow mesh src i)).length =
      j * bound1 mesh i := by
    rw [length_flatMap_const _ _ (bound1 mesh i)
      (fun x _ => length_visitedRow mesh src i x), List.length_range]
  have := getElem?_flatMap_range (visitedRow mesh src i) (bound0 mesh i) j k hj
    (by rw [length_visitedRow]; exact hk)
  rw [hoff] at this
  rw [visitedPart, this, visitedRow, List.getElem?_map, List.getElem?_range hk]
  rfl

/-- The read made for part `i`, row `j`, column `k` sits at position
`offset + j * (c - 1) + k`, the offset being the cells of the parts before `i`. -/
theorem getElem?_visited {mesh : List (multi_array α)} (src : List (multi_array α))
    (hpos : ∀ m ∈ mesh, 1 ≤ m.shape0 ∧ 1 ≤ m.shape1)
    {i j k : Nat} {m : multi_array α} (hm : mesh[i]? = some m)
    (hj : j < m.shape0 - 1) (hk : k < m.shape1 - 1) :
    (visited mesh src)[((mesh.take i).map multi_array.cells).sum
        + j * (m.shape1 - 1) + k]? = some (meshAt? src i j k) := by
  have hi : i < mesh.length := by
    rcases List.getElem?_eq_some_iff.mp hm with ⟨h, _⟩
    exact h
  have hmem : m ∈ mesh := List.getElem?_mem hm
  have hp := hpos m hmem
  have hb0 := bound0_of_getElem? hm hp.1
  have hb1 := bound1_of_getElem? hm hp.2
  have hlen : j * (m.shape1 - 1) + k < (visitedPart mesh src i).length := by
    rw [length_visitedPart, hb0, hb1]
    calc j * (m.shape1 - 1) + k < j * (m.shape1 - 1) + (m.shape1 - 1) := by omega
      _ = (j + 1) * (m.shape1 - 1) := by rw [Nat.add_mul, Nat.one_mul]
      _ ≤ (m.shape0 - 1) * (m.shape1 - 1) := Nat.mul_le_mul_right _ hj
  have := getElem?_flatMap_range (visitedPart mesh src) mesh.length i
    (j * (m.shape1 - 1) + k) hi hlen
  rw [length_visited_upto mesh src hpos i (by omega)] at this
  rw [visited, ← Nat.add_assoc] at *
  rw [this]
  have h2 : (visitedPart mesh src i)[j * bound1 mesh i + k]? = some (meshAt? src i j k) :=
    getElem?_visitedPart src (by rw [hb0]; exact hj) (by rw [hb1]; exact hk)
  rw [hb1] at h2
  exact h2

/-! ## Runs that return, and runs that stay in range -/

theorem meshAt?_of_getElem? {mesh : List (multi_array α)} {i j k : Nat} {m : multi_array α}
    (hm : mesh[i]? = some m) (hj : j < m.shape0) (hk : k < m.shape1) :
    meshAt? mesh i j k = some (m.elems j k) := by
  simp [meshAt?, hm, multi_array.get?, hj, hk]

theorem panel_returns {mp mn : List (multi_array α)} {i j k : Nat} {m : multi_array α}
    (hm : mp[i]? = some m) (hj : j < m.shape0) (hk : k < m.shape1)
    (hn : (meshAt? mn i j k).isSome = true) (f : Nat) (s : List α × List α) :
    ∃ s1, getVehicleMesh.panel mp mn i j f k s = .returned s1 := by
  obtain ⟨n, hn1⟩ := Option.isSome_iff_exists.mp hn
  exact ⟨(s.1 ++ [m.elems j k], s.2 ++ [n]), by
    simp [getVehicleMesh.panel, meshAt?_of_getElem? hm hj hk, hn1]⟩

section Covered

variable {mp mn : List (multi_array α)}
variable (hpos : ∀ m ∈ mp, 1 ≤ m.shape0 ∧ 1 ≤ m.shape1)
variable (hcov : ∀ i m, mp[i]? = some m → ∀ j k, j < m.shape0 - 1 → k < m.shape1 - 1 →
  (meshAt? mn i j k).isSome = true)

include hpos hcov

theorem panel_returns_of_cover {i j k : Nat} {m : multi_array α} (hm : mp[i]? = some m)
    (hj : j < sizeSub m.shape0 1) (hk : k < sizeSub m.shape1 1)
    (f : Nat) (s : List α × List α) :
    ∃ s1, getVehicleMesh.panel mp mn i j f k s = .returned s1 := by
  have hp := hpos m (List.getElem?_mem hm)
  rw [sizeSub_one hp.1 m.shape0_lt] at hj
  rw [sizeSub_one hp.2 m.shape1_lt] at hk
  exact panel_returns hm (by omega) (by omega) (hcov i m hm j k hj hk) f s

theorem row_in_range (f i j : Nat) (s : List α × List α) (hi : i < mp.length)
    (hj : j < bound0 mp i) :
    getVehicleMesh.row mp mn i f j s ≠ .outOfRange := by
  have hm : mp[i]? = some mp[i] := List.getElem?_eq_getElem hi
  have hj1 : j < sizeSub mp[i].shape0 1 := by simpa [bound0, hm] using hj
  unfold getVehicleMesh.row
  simp only [hm]
  apply forUnsignedInt_in_range
  intro f1 k s1 hk hbad
  obtain ⟨s2, h2⟩ := panel_returns_of_cover hpos hcov hm hj1 hk f1 s1
  rw [h2] at hbad
  cases hbad

theorem part_in_range (f i : Nat) (s : List α × List α) (hi : i < mp.length) :
    getVehicleMesh.part mp mn f i s ≠ .outOfRange := by
  have hm : mp[i]? = some mp[i] := List.getElem?_eq_getElem hi
  unfold getVehicleMesh.part
  simp only [hm]
  apply forUnsignedInt_in_range
  intro f1 j s1 hj
  exact row_in_range hpos hcov f1 i j s1 hi (by simpa [bound0, hm] using hj)

/-- With positive shapes and covering normals no run reads out of range. -/
theorem loops_in_range (fuel : Nat) :
    getVehicleMesh.loops mp mn fuel ≠ .outOfRange := by
  unfold getVehicleMesh.loops
  apply forUnsignedInt_in_range
  intro f i s hi
  exact part_in_range hpos hcov f i s hi

variable (hlen : mp.length < 2 ^ 32)
variable (hfit : ∀ m ∈ mp, m.shape0 ≤ 2 ^ 32 ∧ m.shape1 ≤ 2 ^ 32)

include hfit

theorem row_returns (f i j : Nat) (s : List α × List α) (hi : i < mp.length)
    (hj : j < bound0 mp i) (hf : 2 ^ 32 ≤ f) :
    ∃ s1, getVehicleMesh.row mp mn i f j s = .returned s1 := by
  have hm : mp[i]? = some mp[i] := List.getElem?_eq_getElem hi
  have hmem := List.getElem?_mem hm
  have hj1 : j < sizeSub mp[i].shape0 1 := by simpa [bound0, hm] using hj
  have hb : sizeSub mp[i].shape1 1 < 2 ^ 32 := by
    rw [sizeSub_one (hpos _ hmem).2 mp[i].shape1_lt]
    have := (hfit _ hmem).2
    have := (hpos _ hmem).2
    omega
  unfold getVehicleMesh.row
  simp only [hm]
  apply forUnsignedInt_returns _ _ 0
    (fun f1 k s1 hk _ => panel_returns_of_cover hpos hcov hm hj1 hk f1 s1) hb f 0 s
    (Nat.zero_le _)
  omega

theorem part_returns (f i : Nat) (s : List α × List α) (hi : i < mp.length)
    (hf : 2 ^ 33 ≤ f) :
    ∃ s1, getVehicleMesh.part mp mn f i s = .returned s1 := by
  have hm : mp[i]? = some mp[i] := List.getElem?_eq_getElem hi
  have hmem := List.getElem?_mem hm
  have hb : sizeSub mp[i].shape0 1 < 2 ^ 32 := by
    rw [sizeSub_one (hpos _ hmem).1 mp[i].shape0_lt]
    have := (hfit _ hmem).1
    have := (hpos _ hmem).1
    omega
  unfold getVehicleMesh.part
  simp only [hm]
  apply forUnsignedInt_returns _ _ (2 ^ 32)
    (fun f1 j s1 hj hf1 =>
      row_returns hpos hcov hfit f1 i j s1 hi (by simpa [bound0, hm] using hj) hf1)
    hb f 0 s (Nat.zero_le _)
  omega

include hlen

/-- With positive shapes, covering normals and sizes within reach of the counters,
every run with `2 ^ 34` units of fuel or more returns. -/
theorem loops_returns (fuel : Nat) (hf : 2 ^ 34 ≤ fuel) :
    ∃ r, getVehicleMesh.loops mp mn fuel = .returned r := by
  unfold getVehicleMesh.loops
  apply forUnsignedInt_returns _ _ (2 ^ 33)
    (fun f1 i s1 hi hf1 => part_returns hpos hcov hfit f1 i s1 hi hf1)
    hlen fuel 0 _ (Nat.zero_le _)
  omega

end Covered

/-- The shape relation gives positive shapes and normals covering the visited indices. -/
theorem cover_of_zip {mp mn : List (multi_array α)} (hlen : mn.length = mp.length)
    (hrel : ∀ p ∈ mp.zip mn, 1 ≤ p.1.shape0 ∧ 1 ≤ p.1.shape1 ∧
      p.1.shape0 - 1 ≤ p.2.shape0 ∧ p.1.shape1 - 1 ≤ p.2.shape1) :
    (∀ m ∈ mp, 1 ≤ m.shape0 ∧ 1 ≤ m.shape1) ∧
    (∀ i m, mp[i]? = some m → ∀ j k, j < m.shape0 - 1 → k < m.shape1 - 1 →
      (meshAt? mn i j k).isSome = true) := by
  have key : ∀ (i : Nat) (m : multi_array α), mp[i]? = some m →
      ∃ n, mn[i]? = some n ∧ (m, n) ∈ mp.zip mn := by
    intro i m hm
    have hi : i < mp.length := (List.getElem?_eq_some_iff.mp hm).1
    have hn : mn[i]? = some mn[i] := List.getElem?_eq_getElem (by omega)
    exact ⟨mn[i], hn, List.getElem?_mem (List.getElem?_zip_eq_some.mpr ⟨hm, hn⟩)⟩
  constructor
  · intro m hmem
    obtain ⟨i, hm⟩ := List.mem_iff_getElem?.mp hmem
    obtain ⟨n, _, hz⟩ := key i m hm
    have := hrel (m, n) hz
    exact ⟨this.1, this.2.1⟩
  · intro i m hm j k hj hk
    obtain ⟨n, hn, hz⟩ := key i m hm
    have h := hrel (m, n) hz
    simp only at h
    rw [meshAt?_of_getElem? hn (by omega) (by omega)]
    rfl

end Mesh

/-! ## getTotalSurfaceArea -/

theorem foldl_add_eq_sum {γ : Type} (f : γ → ℚ) (l : List γ) :
    ∀ total : ℚ, l.foldl (fun acc p => acc + f p) total = total + (l.map f).sum := by
  induction l with
  | nil => intro total; simp
  | cons p ps ih =>
    intro total
    rw [List.foldl_cons, ih, List.map_cons, List.sum_cons, add_assoc]

/-- The loop started at counter `i` accumulates the parts from `i` on, in order. -/
theorem getTotalSurfaceArea.loop_eq_foldl (a : HypersonicLocalInclinationAnalysis) :
    ∀ (d i : Nat) (total : ℚ), a.getNumberOfVehicleParts - i = d →
      getTotalSurfaceArea.loop a i total =
        (a.vehicleParts.drop i).foldl (fun acc p => acc + |p.getTotalArea|) total := by
  intro d
  induction d with
  | zero =>
    intro i total hd
    have hge : a.vehicleParts.length ≤ i := by
      unfold HypersonicLocalInclinationAnalysis.getNumberOfVehicleParts at hd; omega
    unfold getTotalSurfaceArea.loop
    rw [dif_neg (by unfold HypersonicLocalInclinationAnalysis.getNumberOfVehicleParts; omega),
      List.drop_eq_nil_of_le hge, List.foldl_nil]
  | succ d ih =>
    intro i total hd
    have hlt : i < a.getNumberOfVehicleParts := by omega
    have hlt1 : i < a.vehicleParts.length := hlt
    unfold getTotalSurfaceArea.loop
    rw [dif_pos hlt, ih (i + 1) _ (by omega), List.drop_eq_getElem_cons hlt1, List.foldl_cons]
    rfl

/-! ## The claims -/

/-- C1: for every analysis object, `getTotalSurfaceArea` returns the sum of the absolute
values of the areas of its parts, accumulated from zero in part order; every part
counts once, and the result is zero when there are no parts. -/
theorem getTotalSurfaceArea_sum_of_abs (a : HypersonicLocalInclinationAnalysis) :
    getTotalSurfaceArea a =
        a.vehicleParts.foldl (fun total p => total + |p.getTotalArea|) 0 ∧
    getTotalSurfaceArea a = (a.vehicleParts.map (fun p => |p.getTotalArea|)).sum ∧
    (∀ meshPoints normals, getTotalSurfaceArea ⟨[], meshPoints, normals⟩ = 0) := by
  have h : ∀ b : HypersonicLocalInclinationAnalysis, getTotalSurfaceArea b =
      b.vehicleParts.foldl (fun total p => total + |p.getTotalArea|) 0 := by
    intro b
    unfold getTotalSurfaceArea
    rw [getTotalSurfaceArea.loop_eq_foldl b _ 0 0 rfl, List.drop_zero]
  refine ⟨h a, ?_, ?_⟩
  · rw [h a, foldl_add_eq_sum, zero_add]
  · intro mp mn
    rw [h]
    rfl

theorem getTotalSurfaceArea_sum_of_abs_witness :
    getTotalSurfaceArea sampleAnalysis = |(-2 : ℚ)| + (|(3 : ℚ)| + 0) ∧
    getTotalSurfaceArea sampleAnalysis = 5 := by
  have h := (getTotalSurfaceArea_sum_of_abs sampleAnalysis).2.1
  have e : (sampleAnalysis.vehicleParts.map (fun p => |p.getTotalArea|)).sum =
      |(-2 : ℚ)| + (|(3 : ℚ)| + 0) := rfl
  rw [e] at h
  refine ⟨h, ?_⟩
  rw [h]
  norm_num


/-! ### getVehicleMesh on an analysis object -/

/-- The lists of a returning call are the reads of the loops, in loop order. -/
theorem returns_visited {a : HypersonicLocalInclinationAnalysis}
    {r : List Vector3d × List Vector3d} (h : Returns a r) :
    r.1.map some = visited a.getMeshPoints a.getMeshPoints ∧
    r.2.map some = visited a.getMeshPoints a.getPanelSurfaceNormals := by
  obtain ⟨fuel, hf⟩ := h
  exact loops_returned hf

/-- The call returns when shapes are positive, normals cover the visited indices and
the sizes are within reach of the loop counters. -/
theorem getVehicleMesh_returns (a : HypersonicLocalInclinationAnalysis)
    (hshape : ShapesPositive a) (hcover : NormalsCover a) (hfit : FitsCounters a) :
    ∃ r, Returns a r := by
  obtain ⟨r, hr⟩ := loops_returns hshape hcover hfit.1 hfit.2 (2 ^ 34) (Nat.le_refl _)
  exact ⟨r, 2 ^ 34, hr⟩

theorem shapesPositive_of_shapeRelation {a : HypersonicLocalInclinationAnalysis}
    (h : ShapeRelation a) : ShapesPositive a :=
  (cover_of_zip h.1 h.2).1

theorem normalsCover_of_shapeRelation {a : HypersonicLocalInclinationAnalysis}
    (h : ShapeRelation a) : NormalsCover a :=
  (cover_of_zip h.1 h.2).2

theorem sampleAnalysis_shapeRelation : ShapeRelation sampleAnalysis := by
  decide

theorem sampleAnalysis_fitsCounters : FitsCounters sampleAnalysis := by
  decide

theorem sampleAnalysis_returns : Returns sampleAnalysis sampleResult :=
  ⟨20, by decide⟩

/-- C2: for every analysis object whose mesh-point arrays have at least one row and one
column and whose surface-normal arrays cover the visited indices, the point list returned
by `getVehicleMesh` has as many elements as there are mesh cells, `(r - 1) * (c - 1)`
summed over the parts; and the call does return such a list when the part count and the
shapes are within reach of the 32-bit loop counters. -/
theorem getVehicleMesh_point_count (a : HypersonicLocalInclinationAnalysis)
    (hshape : ShapesPositive a) (hcover : NormalsCover a) :
    (∀ r, Returns a r → r.1.length = panelCount a) ∧
    (FitsCounters a → ∃ r, Returns a r) := by
  refine ⟨?_, getVehicleMesh_returns a hshape hcover⟩
  intro r hr
  have h := congrArg List.length (returns_visited hr).1
  rw [List.length_map, length_visited _ _ hshape] at h
  exact h

theorem getVehicleMesh_point_count_witness :
    ShapesPositive sampleAnalysis ∧ NormalsCover sampleAnalysis ∧
    Returns sampleAnalysis sampleResult ∧
    sampleResult.1.length = panelCount sampleAnalysis ∧ panelCount sampleAnalysis = 6 :=
  have hs := shapesPositive_of_shapeRelation sampleAnalysis_shapeRelation
  have hc := normalsCover_of_shapeRelation sampleAnalysis_shapeRelation
  ⟨hs, hc, sampleAnalysis_returns,
    (getVehicleMesh_point_count sampleAnalysis hs hc).1 _ sampleAnalysis_returns,
    by decide⟩

/-- C3: for every analysis object on which `getVehicleMesh` returns, the returned list
of mesh points and the returned list of surface normals have the same length. -/
theorem getVehicleMesh_lists_same_length (a : HypersonicLocalInclinationAnalysis)
    (points normals : List Vector3d) (h : Returns a (points, normals)) :
    points.length = normals.length := by
  have h1 := congrArg List.length (returns_visited h).1
  have h2 := congrArg List.length (returns_visited h).2
  rw [List.length_map] at h1 h2
  rw [h1, h2]
  exact length_visited_eq _ _ _

theorem getVehicleMesh_lists_same_length_witness :
    Returns sampleAnalysis (sampleResult.1, sampleResult.2) ∧
    sampleResult.1.length = sampleResult.2.length :=
  ⟨sampleAnalysis_returns,
    getVehicleMesh_lists_same_length sampleAnalysis _ _ sampleAnalysis_returns⟩

/-- C4, as stated, fails: on the sample object the call returns, the point stored at
index `(0, 2, 2)` (last row, last column of the first part) exists, and it is not in the
returned point list. -/
theorem getVehicleMesh_skips_last_row_and_column :
    Returns sampleAnalysis sampleResult ∧
    meshAt? sampleAnalysis.getMeshPoints 0 2 2 = some ⟨0, 2, 2⟩ ∧
    (⟨0, 2, 2⟩ : Vector3d) ∉ sampleResult.1 :=
  ⟨⟨20, by decide⟩, by decide, by decide⟩

/-- C4, amended: for every analysis object, every point stored at an index `(i, j, k)`
with `j < r_i - 1` and `k < c_i - 1` (all rows but the last, all columns but the last)
appears in the point list `getVehicleMesh` returns; and the call does return when
shapes are positive, normals cover the visited indices and sizes fit the counters. -/
theorem getVehicleMesh_contains_cell_points (a : HypersonicLocalInclinationAnalysis) :
    (∀ r, Returns a r →
      ∀ (i : Nat) (m : multi_array Vector3d), a.getMeshPoints[i]? = some m →
      ∀ j k, j + 1 < m.shape0 → k + 1 < m.shape1 → m.elems j k ∈ r.1) ∧
    (ShapesPositive a → NormalsCover a → FitsCounters a → ∃ r, Returns a r) := by
  refine ⟨?_, getVehicleMesh_returns a⟩
  intro r hr i m hm j k hj hk
  have hi : i < a.getMeshPoints.length := (List.getElem?_eq_some_iff.mp hm).1
  have hb0 : bound0 a.getMeshPoints i = m.shape0 - 1 := bound0_of_getElem? hm (by omega)
  have hb1 : bound1 a.getMeshPoints i = m.shape1 - 1 := bound1_of_getElem? hm (by omega)
  have hmem : some (m.elems j k) ∈ visited a.getMeshPoints a.getMeshPoints := by
    unfold visited
    refine List.mem_flatMap.mpr ⟨i, List.mem_range.mpr hi, ?_⟩
    unfold visitedPart
    refine List.mem_flatMap.mpr ⟨j, List.mem_range.mpr (by omega), ?_⟩
    unfold visitedRow
    refine List.mem_map.mpr ⟨k, List.mem_range.mpr (by omega), ?_⟩
    exact meshAt?_of_getElem? hm (by omega) (by omega)
  rw [← (returns_visited hr).1] at hmem
  obtain ⟨p, hp, hpe⟩ := List.mem_map.mp hmem
  cases hpe
  exact hp

theorem getVehicleMesh_contains_cell_points_witness :
    Returns sampleAnalysis sampleResult ∧
    sampleAnalysis.getMeshPoints[0]? = some (sampleArray 0 3 3 (by decide) (by decide)) ∧
    (sampleArray 0 3 3 (by decide) (by decide)).elems 1 1 = ⟨0, 1, 1⟩ ∧
    (⟨0, 1, 1⟩ : Vector3d) ∈ sampleResult.1 :=
  ⟨sampleAnalysis_returns, rfl, by decide,
    (getVehicleMesh_contains_cell_points sampleAnalysis).1 sampleResult
      sampleAnalysis_returns 0 (sampleArray 0 3 3 (by decide) (by decide)) rfl
      1 1 (by decide) (by decide)⟩

/-- C7: for every analysis object whose mesh-point arrays have at least one row and one
column, the lists `getVehicleMesh` returns are parallel and in part-major, row-major
order: for part `i` of shape `(r, c)`, `j < r - 1` and `k < c - 1`, position
`panelOffset a i + j * (c - 1) + k` of the point list holds `meshPoints[i][j][k]` and
the same position of the normal list holds `meshSurfaceNormals[i][j][k]`; and the call
does return when normals cover the visited indices and sizes fit the counters. -/
theorem getVehicleMesh_part_major_row_major (a : HypersonicLocalInclinationAnalysis)
    (hshape : ShapesPositive a) :
    (∀ r, Returns a r →
      ∀ (i : Nat) (m : multi_array Vector3d), a.getMeshPoints[i]? = some m →
      ∀ j k, j < m.shape0 - 1 → k < m.shape1 - 1 →
      ∃ point normal,
        meshAt? a.getMeshPoints i j k = some point ∧
        meshAt? a.getPanelSurfaceNormals i j k = some normal ∧
        r.1[panelOffset a i + j * (m.shape1 - 1) + k]? = some point ∧
        r.2[panelOffset a i + j * (m.shape1 - 1) + k]? = some normal) ∧
    (NormalsCover a → FitsCounters a → ∃ r, Returns a r) := by
  refine ⟨?_, getVehicleMesh_returns a hshape⟩
  intro r hr i m hm j k hj hk
  have hp := getElem?_visited a.getMeshPoints hshape hm hj hk
  have hn := getElem?_visited a.getPanelSurfaceNormals hshape hm hj hk
  rw [← (returns_visited hr).1, List.getElem?_map] at hp
  rw [← (returns_visited hr).2, List.getElem?_map] at hn
  unfold panelOffset
  cases h1 : r.1[((a.getMeshPoints.take i).map multi_array.cells).sum
      + j * (m.shape1 - 1) + k]? with
  | none => rw [h1] at hp; cases hp
  | some point =>
    cases h2 : r.2[((a.getMeshPoints.take i).map multi_array.cells).sum
        + j * (m.shape1 - 1) + k]? with
    | none => rw [h2] at hn; cases hn
    | some normal =>
      rw [h1] at hp
      rw [h2] at hn
      simp only [Option.map_some', Option.some.injEq] at hp hn
      exact ⟨point, normal, hp.symm, hn.symm, rfl, rfl⟩

theorem getVehicleMesh_part_major_row_major_witness :
    ShapesPositive sampleAnalysis ∧ Returns sampleAnalysis sampleResult ∧
    ∃ point normal,
      meshAt? sampleAnalysis.getMeshPoints 1 0 1 = some point ∧
      meshAt? sampleAnalysis.getPanelSurfaceNormals 1 0 1 = some normal ∧
      sampleResult.1[panelOffset sampleAnalysis 1 + 0 * (3 - 1) + 1]? = some point ∧
      sampleResult.2[panelOffset sampleAnalysis 1 + 0 * (3 - 1) + 1]? = some normal :=
  have hs := shapesPositive_of_shapeRelation sampleAnalysis_shapeRelation
  ⟨hs, sampleAnalysis_returns,
    (getVehicleMesh_part_major_row_major sampleAnalysis hs).1 sampleResult
      sampleAnalysis_returns 1 (sampleArray 1 2 3 (by decide) (by decide)) rfl
      0 1 (by decide) (by decide)⟩

/-- C9: under the shape relation of the library (as many normal arrays as mesh-point
arrays, every mesh-point array of shape `(r, c)` with `r, c ≥ 1`, its normal array of
shape at least `(r - 1, c - 1)`) no run of `getVehicleMesh`, however long, reads
`meshPoints[i][j][k]` or `meshSurfaceNormals[i][j][k]` outside its array. -/
theorem getVehicleMesh_reads_in_range (a : HypersonicLocalInclinationAnalysis)
    (hrel : ShapeRelation a) (fuel : Nat) :
    getVehicleMesh fuel a ≠ .outOfRange :=
  loops_in_range (shapesPositive_of_shapeRelation hrel)
    (normalsCover_of_shapeRelation hrel) fuel

theorem getVehicleMesh_reads_in_range_witness :
    ShapeRelation sampleAnalysis ∧ getVehicleMesh 20 sampleAnalysis ≠ .outOfRange :=
  ⟨sampleAnalysis_shapeRelation,
    getVehicleMesh_reads_in_range sampleAnalysis sampleAnalysis_shapeRelation 20⟩


/-- A single part whose row bound is beyond the 32-bit counter and whose column bound is
zero: the loop over `j` runs an empty body for ever, whatever the step budget. -/
theorem single_part_never_returns (parts : List LawgsPartGeometry)
    (m n : multi_array Vector3d) (h0 : 2 ^ 32 ≤ sizeSub m.shape0 1)
    (h1 : sizeSub m.shape1 1 = 0) (fuel : Nat) :
    getVehicleMesh fuel ⟨parts, [m], [n]⟩ = .outOfFuel := by
  cases h : getVehicleMesh fuel ⟨parts, [m], [n]⟩ with
  | outOfFuel => rfl
  | returned r =>
    exfalso
    obtain ⟨f, s1, hf⟩ := forUnsignedInt_first _ _ fuel 0 _ r Nat.zero_lt_one h
    exact forUnsignedInt_large_bound _ _ h0 f 0 _ s1 (by decide) hf
  | outOfRange =>
    exfalso
    revert h
    apply forUnsignedInt_in_range
    intro f i s hi
    have hi0 : i = 0 := by
      have : i < 1 := hi
      omega
    subst hi0
    apply forUnsignedInt_in_range
    intro f1 j s1 _
    apply forUnsignedInt_in_range
    intro f2 k s2 hk
    have hk0 : k < sizeSub m.shape1 1 := hk
    omega

/-- C8 fails on parts with an empty dimension. With zero rows and one column the bound
`shape( )[ 0 ] - 1` wraps to `2 ^ 64 - 1`, which the 32-bit counter `j` never reaches:
no step budget lets the call return. With two rows and zero columns the bound
`shape( )[ 1 ] - 1` wraps likewise and the first read, `meshPoints[0][0][0]`, is out of
range. The call does not return either on a part with `2 ^ 32 + 1` rows, whose bound
`2 ^ 32` is out of reach of the counter without any wrap of the subtraction. -/
theorem getVehicleMesh_empty_dimension :
    (∀ fuel, getVehicleMesh fuel zeroRowsAnalysis = .outOfFuel) ∧
    (∀ fuel, 3 ≤ fuel → getVehicleMesh fuel zeroColumnsAnalysis = .outOfRange) ∧
    (∀ fuel, getVehicleMesh fuel manyRowsAnalysis = .outOfFuel) := by
  refine ⟨?_, ?_, ?_⟩
  · intro fuel
    exact single_part_never_returns _ _ _ (by decide) (by decide) fuel
  · intro fuel hf
    obtain ⟨f, rfl⟩ : ∃ f, fuel = f + 3 := ⟨fuel - 3, by omega⟩
    rfl
  · intro fuel
    exact single_part_never_returns _ _ _ (by decide) (by decide) fuel


/-! ### The registration surface -/

/-- C5 fails on the code: in the `FlightConditions` registration the property
`current_geodetic_latitude` resolves to the native getter `getCurrentTime` and the
property `current_time` to `getCurrentGeodeticLatitude`; these two are the only
read-only properties of the class whose getter is not the one their name states. -/
theorem FlightConditions_latitude_and_time_swapped :
    propertyGetter (classMembers expose_aerodynamics "FlightConditions")
      "current_geodetic_latitude" = some "getCurrentTime" ∧
    propertyGetter (classMembers expose_aerodynamics "FlightConditions")
      "current_time" = some "getCurrentGeodeticLatitude" ∧
    (readonlyProperties (classMembers expose_aerodynamics "FlightConditions")).filter
      (fun p => statedGetter p.1 != p.2) =
      [("current_geodetic_latitude", "getCurrentTime"),
       ("current_time", "getCurrentGeodeticLatitude")] := by
  decide

/-- C6: the `HypersonicLocalInclinationAnalysis` constructor takes ten named arguments
in the stated order, of which only `save_pressure_coefficients` has a default, `false`;
`get_default_local_inclination_mach_points` has the single argument `mach_regime` with
default `"Full"`; the `FlightConditions` constructor requires `shape_model` and defaults
`aerodynamic_angle_calculator` to a null handle. -/
theorem expose_aerodynamics_default_arguments :
    (constructors (classMembers expose_aerodynamics "HypersonicLocalInclinationAnalysis")).map
        (fun args => args.map Arg.name) =
      [["independent_variable_points", "body_shape", "number_of_lines", "number_of_points",
        "invert_orders", "selected_methods", "reference_area", "reference_length",
        "moment_reference_point", "save_pressure_coefficients"]] ∧
    (constructors (classMembers expose_aerodynamics "HypersonicLocalInclinationAnalysis")).map
        (fun args => args.filter (fun x => x.default.isSome)) =
      [[⟨"save_pressure_coefficients", some (.boolean false)⟩]] ∧
    functionArgs expose_aerodynamics "get_default_local_inclination_mach_points" =
      some [⟨"mach_regime", some (.text "Full")⟩] ∧
    constructors (classMembers expose_aerodynamics "FlightConditions") =
      [[⟨"shape_model", none⟩, ⟨"aerodynamic_angle_calculator", some .nullHandle⟩]] := by
  decide

/-- C10 fails on the code: exactly one exposed name is not a valid identifier, the
`AtmosphericFlightConditions` property registered with a `+` in its name. -/
theorem expose_aerodynamics_invalid_names :
    (exposedNames expose_aerodynamics).filter (fun n => !isIdentifier n) =
      ["current_control_surface+aerodynamic_coefficient_independent_variables"] ∧
    "current_control_surface+aerodynamic_coefficient_independent_variables" ∈
      (readonlyProperties
        (classMembers expose_aerodynamics "AtmosphericFlightConditions")).map Prod.fst := by
  decide

end tudatpy
